import Mathlib

/-!
Verification development for the Face Approval System backend (`app.py`).

The embedding follows the in-memory storage variant of the backend, which is
the complete, self-contained implementation (the MongoDB branch mirrors it
operation for operation; where the two branches differ observably — the admin
log read — both are modelled, selected by a `useMongo` flag, matching
`admin_data`).

Python dictionaries preserve insertion order, so every collection is modelled
as an association list in storage order with the dictionary operations
(`lookupD`, `setD`, `eraseD`) reproducing Python semantics: lookup finds the
key, assignment updates in place or appends a fresh key at the end, deletion
removes the entry.  Python string slicing `s[:n]` is `pyTake`, `str.strip()`
is `pyStrip`, and `len` is `String.length` (payloads are treated as character
sequences).  Timestamps (`datetime.now()`) are modelled by a monotone counter
`now` carried in the state; random token generation (`secrets.token_hex`) is
modelled by oracle parameters (`freshSid`, `freshToken`, `freshCode`) supplied
by the caller.
-/

namespace FaceApproval

/-- Python `d.get(k)` over an insertion-ordered dictionary. -/
def lookupD {α : Type} : List (String × α) → String → Option α
  | [], _ => none
  | (k2, v) :: rest, k => if k2 = k then some v else lookupD rest k

/-- Python `d[k] = v`: update in place if the key exists, else append. -/
def setD {α : Type} : List (String × α) → String → α → List (String × α)
  | [], k, v => [(k, v)]
  | (k2, v2) :: rest, k, v =>
      if k2 = k then (k2, v) :: rest else (k2, v2) :: setD rest k v

/-- Python `del d[k]`: remove the entry with the key (first occurrence). -/
def eraseD {α : Type} : List (String × α) → String → List (String × α)
  | [], _ => []
  | (k2, v2) :: rest, k => if k2 = k then rest else (k2, v2) :: eraseD rest k

/-- The keys of a dictionary, in storage order. -/
def keysOf {α : Type} (l : List (String × α)) : List String := l.map (fun p => p.1)

/-- Python string slice `s[:n]`. -/
def pyTake (s : String) (n : Nat) : String := String.mk (s.data.take n)

/-- Whitespace characters removed by Python `str.strip()`. -/
def isWS (c : Char) : Bool :=
  c = ' ' || c = '\t' || c = '\n' || c = '\r' || c = '\x0b' || c = '\x0c'

/-- Python `str.strip()`. -/
def pyStrip (s : String) : String :=
  String.mk (((s.data.dropWhile isWS).reverse.dropWhile isWS).reverse)

/-- A `registered_faces` document (`user_document` in `register_entry`). -/
structure RegDoc where
  name : String
  face_data : String
  class_name : String
  roll : String
  code : String
  registered_at : Nat
deriving Repr, DecidableEq

/-- An `active_sessions` document (`session_document` in `approve_face`). -/
structure SessionDoc where
  name : String
  session_id : String
  started_at : Nat
deriving Repr, DecidableEq

/-- A `temp_faces` record: optional captured payload, optional admin flag
(absent key modelled as `false`, matching `get('admin', False)`), optional
creation timestamp. -/
structure TempDoc where
  face_image : Option String
  admin : Bool
  created_at : Option Nat
deriving Repr, DecidableEq

/-- A `console_logs` entry: timestamp plus action text. -/
structure LogEntry where
  ts : Nat
  action : String
deriving Repr, DecidableEq

/-- The `in_memory_storage` dictionary of `app.py`, plus the monotone clock
standing in for `datetime.now()`. -/
structure AppState where
  registered_faces : List (String × RegDoc)
  active_sessions : List (String × SessionDoc)
  console_logs : List LogEntry
  temp_faces : List (String × TempDoc)
  now : Nat
deriving Repr, DecidableEq

/-- HTTP error outcomes (`HTTPException` status classes with detail text). -/
inductive ApiError where
  | badRequest (detail : String)
  | unauthorized (detail : String)
  | forbidden (detail : String)
  | notFound (detail : String)
  | internal (detail : String)
deriving Repr, DecidableEq

/-- `log_action`: append a timestamped entry, then keep only the last 100
entries (the MongoDB branch deletes the `count - 100` oldest, the in-memory
branch slices `[-100:]`; both leave exactly the most recent 100). -/
def log_action (action : String) (s : AppState) : AppState :=
  let entry : LogEntry := { ts := s.now, action := action }
  let logs := s.console_logs ++ [entry]
  let logs := if logs.length > 100 then logs.drop (logs.length - 100) else logs
  { s with console_logs := logs, now := s.now + 1 }

/-- `get_or_create_session_id`: reuse the cookie when present and non-empty
(Python truthiness), otherwise mint a fresh token (oracle `fresh`). -/
def get_or_create_session_id (cookie : Option String) (fresh : String) : String :=
  match cookie with
  | some sid => if sid = "" then fresh else sid
  | none => fresh

/-- `clear_temp_face`: drop the `face_image` field of the record for the
browser-session token, keeping the record itself (no-op when absent). -/
def clear_temp_face (sid : String) (s : AppState) : AppState :=
  match lookupD s.temp_faces sid with
  | none => s
  | some t => { s with temp_faces := setD s.temp_faces sid { t with face_image := none } }

/-- `is_admin` check used by `delete_user` / `edit_user`: the Temp Capture
record for the browser-session token must carry a true admin flag. -/
def is_admin (sid : String) (s : AppState) : Bool :=
  match lookupD s.temp_faces sid with
  | some t => t.admin
  | none => false

/-- Detail text of the `capture_face` length rejection. -/
def invalidFaceDetail : String := "Invalid face data - image too small or empty"

/-- `POST /api/capture-face`: reject payloads that are empty or shorter than
100 characters, otherwise upsert the Temp Capture record's payload and
creation timestamp for the caller's browser-session token. Returns the
token (set as a cookie by the route). -/
def capture_face (cookie : Option String) (freshSid : String) (face_image : String)
    (s : AppState) : Except ApiError String × AppState :=
  if face_image = "" ∨ face_image.length < 100 then
    (Except.error (ApiError.badRequest invalidFaceDetail), s)
  else
    let sid := get_or_create_session_id cookie freshSid
    let trec : TempDoc :=
      match lookupD s.temp_faces sid with
      | some t => { t with face_image := some face_image, created_at := some s.now }
      | none => { face_image := some face_image, admin := false, created_at := some s.now }
    let s1 := { s with temp_faces := setD s.temp_faces sid trec, now := s.now + 1 }
    let s2 := log_action "Face captured for registration" s1
    (Except.ok sid, s2)

/-- Detail text of the blank-fields rejection in `register_entry`. -/
def fieldsRequiredDetail : String := "All fields are required (name, class, roll)"

/-- Detail text of the missing-payload rejection in `register_entry`. -/
def noCaptureDetail : String :=
  "No face captured. Please capture your face first using the camera."

/-- Detail text of the duplicate-name rejection in `register_entry`. -/
def conflictDetail (name : String) : String :=
  "User " ++ name ++ " is already registered. Please use a different name."

/-- The face payload `register_entry` works with: the inline `face_image`
when non-empty (Python truthiness), else the payload saved in the caller's
Temp Capture record. -/
def effective_face (face_image sid : String) (s : AppState) : Option String :=
  if face_image = "" then (lookupD s.temp_faces sid).bind (fun t => t.face_image)
  else some face_image

/-- Body of a successful `register_entry` response. -/
structure RegisterResponse where
  code : String
  name : String
deriving Repr, DecidableEq

/-- `POST /api/register-entry`: trim the fields, reject blanks, resolve the
face payload (inline or Temp Capture), reject a missing payload, reject a
duplicate name, then store the registration with the 500-character payload
slice as `face_data`, clear the Temp Capture payload and log. -/
def register_entry (cookie : Option String) (freshSid freshCode : String)
    (name class_name roll face_image : String) (s : AppState) :
    Except ApiError RegisterResponse × AppState :=
  let nm := pyStrip name
  let cls := pyStrip class_name
  let rl := pyStrip roll
  if nm = "" ∨ cls = "" ∨ rl = "" then
    (Except.error (ApiError.badRequest fieldsRequiredDetail), s)
  else
    let sid := get_or_create_session_id cookie freshSid
    match effective_face face_image sid s with
    | none => (Except.error (ApiError.badRequest noCaptureDetail), s)
    | some fd =>
      if fd = "" then (Except.error (ApiError.badRequest noCaptureDetail), s)
      else if (lookupD s.registered_faces nm).isSome then
        (Except.error (ApiError.badRequest (conflictDetail nm)), s)
      else
        let doc : RegDoc :=
          { name := nm, face_data := pyTake fd 500, class_name := cls, roll := rl,
            code := freshCode, registered_at := s.now }
        let s1 := { s with registered_faces := setD s.registered_faces nm doc,
                           now := s.now + 1 }
        let s2 := clear_temp_face sid s1
        let s3 := log_action ("NEW REGISTRATION: " ++ nm ++ " | Class: " ++ cls ++
                              " | Roll: " ++ rl ++ " | Code: " ++ freshCode) s2
        (Except.ok { code := freshCode, name := nm }, s3)

/-- Detail text of the short-payload rejection in `approve_face`. -/
def noFaceDetail : String := "No face captured. Please position your face in the camera."

/-- Detail text of the zero-registrations rejection in `approve_face`. -/
def noUsersDetail : String := "No registered users found. Please register first."

/-- Detail text of the not-recognized rejection in `approve_face`. -/
def notRecognizedDetail : String := "Face not recognized. Please register first."

/-- Detail text of the internal error the `approve_face` handler reports. -/
def approveErrDetail : String := "Approval error"

/-- Body of a successful `approve_face` response. -/
structure ApproveResponse where
  session_id : String
  name : String
  class_name : String
  roll : String
  message : String
deriving Repr, DecidableEq

/-- The exact-fingerprint scan of `approve_face`: first registration whose
stored `face_data` equals the 500-character slice of the payload. -/
def exact_match (users : List RegDoc) (face_hash : String) : Option String :=
  (users.find? (fun u => u.face_data = face_hash)).map (fun u => u.name)

/-- The demo fallback of `approve_face`: when the exact scan produced nothing
truthy (`None` or an empty name) and users exist, take the first user and log
the fallback event. Returns the matched value and the possibly-logged state. -/
def fallback_step (users : List RegDoc) (m0 : Option String) (s : AppState) :
    Option String × AppState :=
  if m0.getD "" = "" then
    match users with
    | [] => (m0, s)
    | u :: _ => (some u.name, log_action ("Using fallback match for demo: " ++ u.name) s)
  else (m0, s)

/-- The matched registrant `approve_face` resolves for a payload: the first
exact fingerprint match in storage order, else the first registration. -/
def matched_user (users : List RegDoc) (face_image : String) : Option String :=
  let m0 := exact_match users (pyTake face_image 500)
  if m0.getD "" = "" then
    match users with
    | [] => m0
    | u :: _ => some u.name
  else m0

/-- Lines 484-533 of `approve_face`, entered with a truthy matched name `n`:
reuse an existing Active Session (clearing the Temp Capture payload) or mint
a new one; a registration lookup failure for `n` would surface as the
handler's internal error (after the state mutations already performed). -/
def approve_after_match (cookie : Option String) (freshSid freshToken n : String)
    (s : AppState) : Except ApiError ApproveResponse × AppState :=
  let existing := lookupD s.active_sessions n
  let user_info := lookupD s.registered_faces n
  match existing with
  | some es =>
    let sid := get_or_create_session_id cookie freshSid
    let s1 := clear_temp_face sid s
    let s2 := log_action ("Session already active for: " ++ n) s1
    match user_info with
    | none => (Except.error (ApiError.internal approveErrDetail),
               log_action "ERROR: Face approval failed" s2)
    | some ui =>
      (Except.ok { session_id := es.session_id, name := n, class_name := ui.class_name,
                   roll := ui.roll, message := "Session already active" }, s2)
  | none =>
    let sess : SessionDoc := { name := n, session_id := freshToken, started_at := s.now }
    let s1 := { s with active_sessions := setD s.active_sessions n sess, now := s.now + 1 }
    let sid := get_or_create_session_id cookie freshSid
    let s2 := clear_temp_face sid s1
    let s3 := log_action ("SESSION STARTED: " ++ n ++ " | Session: " ++ freshToken) s2
    match user_info with
    | none => (Except.error (ApiError.internal approveErrDetail),
               log_action "ERROR: Face approval failed" s3)
    | some ui =>
      (Except.ok { session_id := freshToken, name := n, class_name := ui.class_name,
                   roll := ui.roll, message := "Face approved successfully!" }, s3)

/-- `POST /api/approve-face`: reject empty/short payloads, reject when no
registrations exist, match by 500-character fingerprint slice with first-user
fallback, then reuse or create the Active Session. -/
def approve_face (cookie : Option String) (freshSid freshToken : String)
    (face_image : String) (s : AppState) : Except ApiError ApproveResponse × AppState :=
  if face_image = "" ∨ face_image.length < 100 then
    (Except.error (ApiError.badRequest noFaceDetail), s)
  else if s.registered_faces = [] then
    (Except.error (ApiError.badRequest noUsersDetail), s)
  else
    let users := s.registered_faces.map (fun p => p.2)
    let face_hash := pyTake face_image 500
    let fb := fallback_step users (exact_match users face_hash) s
    if fb.1.getD "" = "" then
      (Except.error (ApiError.badRequest notRecognizedDetail), fb.2)
    else
      approve_after_match cookie freshSid freshToken (fb.1.getD "") fb.2

/-- Detail text of the `end_session` not-found rejection. -/
def sessionNotFoundDetail : String := "Session not found"

/-- `POST /api/end-session`: find the Active Session owning the supplied
session token (storage order), delete it and log; not-found otherwise. -/
def end_session (session_id : String) (s : AppState) :
    Except ApiError String × AppState :=
  match s.active_sessions.find? (fun p => p.2.session_id = session_id) with
  | none => (Except.error (ApiError.notFound sessionNotFoundDetail), s)
  | some (n, _) =>
    let s1 := { s with active_sessions := eraseD s.active_sessions n }
    let s2 := log_action ("SESSION ENDED: " ++ n ++ " | " ++ session_id) s1
    (Except.ok "Session ended successfully", s2)

/-- Configured admin username (`ADMIN_USERNAME`). -/
def adminUsername : String := "root"

/-- Configured admin password (`ADMIN_PASSWORD`). -/
def adminPassword : String := "ssh"

/-- `POST /api/admin-login`: on the fixed credentials, set the admin flag on
the caller's Temp Capture record (creating it if absent) and log; otherwise
log the failed attempt and reject as unauthorized. -/
def admin_login (cookie : Option String) (freshSid username password : String)
    (s : AppState) : Except ApiError String × AppState :=
  if username = adminUsername ∧ password = adminPassword then
    let sid := get_or_create_session_id cookie freshSid
    let trec : TempDoc :=
      match lookupD s.temp_faces sid with
      | some t => { t with admin := true }
      | none => { face_image := none, admin := true, created_at := none }
    let s1 := { s with temp_faces := setD s.temp_faces sid trec }
    let s2 := log_action ("ADMIN LOGIN: Successful (Username: " ++ username ++ ")") s1
    (Except.ok sid, s2)
  else
    (Except.error (ApiError.unauthorized "Invalid credentials. Please check username and password."),
     log_action ("ADMIN LOGIN: Failed attempt (Username: " ++ username ++ ")") s)

/-- `POST /api/admin-logout`: delete the caller's Temp Capture record and log. -/
def admin_logout (cookie : Option String) (freshSid : String) (s : AppState) :
    Except ApiError String × AppState :=
  let sid := get_or_create_session_id cookie freshSid
  let s1 := { s with temp_faces := eraseD s.temp_faces sid }
  (Except.ok "Logged out successfully", log_action "ADMIN LOGOUT: Successful" s1)

/-- `POST /api/clear-face`: clear the caller's Temp Capture payload. -/
def clear_face (cookie : Option String) (freshSid : String) (s : AppState) :
    Except ApiError String × AppState :=
  let sid := get_or_create_session_id cookie freshSid
  (Except.ok "Face data cleared", clear_temp_face sid s)

/-- Detail text of the admin-authorization rejection. -/
def unauthorizedDetail : String := "Unauthorized. Admin access required."

/-- Detail text of the unknown-user rejection in `delete_user` / `edit_user`. -/
def userNotFoundDetail (name : String) : String := "User " ++ name ++ " not found"

/-- `POST /api/delete-user`: admin only; delete the Registration and
cascade-delete any Active Session of that name, then log. -/
def delete_user (cookie : Option String) (freshSid name : String) (s : AppState) :
    Except ApiError String × AppState :=
  let sid := get_or_create_session_id cookie freshSid
  if is_admin sid s = false then
    (Except.error (ApiError.forbidden unauthorizedDetail), s)
  else
    match lookupD s.registered_faces name with
    | none => (Except.error (ApiError.notFound (userNotFoundDetail name)), s)
    | some _ =>
      let s1 := { s with registered_faces := eraseD s.registered_faces name,
                         active_sessions := eraseD s.active_sessions name }
      (Except.ok ("User " ++ name ++ " deleted successfully"),
       log_action ("USER DELETED: " ++ name ++ " (by Admin)") s1)

/-- Detail text of the rename-collision rejection in `edit_user`. -/
def existsDetail (name : String) : String := "User " ++ name ++ " already exists"

/-- `POST /api/edit-user`: admin only; unknown old name is not-found; a rename
to an existing different name is a conflict; otherwise update class/roll (and
on a rename, re-key the Registration and any Active Session to the new name,
moving them to the end of storage order as the code re-inserts them). -/
def edit_user (cookie : Option String) (freshSid old_name new_name new_class new_roll : String)
    (s : AppState) : Except ApiError String × AppState :=
  let sid := get_or_create_session_id cookie freshSid
  if is_admin sid s = false then
    (Except.error (ApiError.forbidden unauthorizedDetail), s)
  else
    match lookupD s.registered_faces old_name with
    | none => (Except.error (ApiError.notFound (userNotFoundDetail old_name)), s)
    | some user =>
      if old_name = new_name then
        let user1 := { user with name := new_name, class_name := new_class, roll := new_roll }
        let s1 := { s with registered_faces := setD s.registered_faces old_name user1 }
        (Except.ok "User updated successfully",
         log_action ("USER EDITED: " ++ old_name ++ " to " ++ new_name ++ " (by Admin)") s1)
      else if (lookupD s.registered_faces new_name).isSome then
        (Except.error (ApiError.badRequest (existsDetail new_name)), s)
      else
        let user1 := { user with name := new_name, class_name := new_class, roll := new_roll }
        let regs := setD (eraseD s.registered_faces old_name) new_name user1
        let sess :=
          match lookupD s.active_sessions old_name with
          | some sd => setD (eraseD s.active_sessions old_name) new_name { sd with name := new_name }
          | none => s.active_sessions
        let s1 := { s with registered_faces := regs, active_sessions := sess }
        (Except.ok "User updated successfully",
         log_action ("USER EDITED: " ++ old_name ++ " to " ++ new_name ++ " (by Admin)") s1)

/-- `insort` step of the document-store read `sort("timestamp", -1)`:
insert before the first entry with a timestamp not above the new one. -/
def insertByTsDesc (e : LogEntry) : List LogEntry → List LogEntry
  | [] => [e]
  | x :: xs => if x.ts ≤ e.ts then e :: x :: xs else x :: insertByTsDesc e xs

/-- The document-store read order `sort("timestamp", -1)`. -/
def sortByTsDesc : List LogEntry → List LogEntry
  | [] => []
  | x :: xs => insertByTsDesc x (sortByTsDesc xs)

/-- The logs block of `GET /api/admin-data`: the MongoDB branch sorts by
timestamp descending and limits to 50; the in-memory branch slices `[-50:]`
of the chronological list. -/
def admin_logs_view (useMongo : Bool) (logs : List LogEntry) : List LogEntry :=
  if useMongo then (sortByTsDesc logs).take 50
  else logs.drop (logs.length - 50)

/-- One state-mutating API call, with its oracle inputs. -/
inductive Op where
  | capture (cookie : Option String) (freshSid face_image : String)
  | register (cookie : Option String) (freshSid freshCode name class_name roll face_image : String)
  | approve (cookie : Option String) (freshSid freshToken face_image : String)
  | endSession (session_id : String)
  | adminLogin (cookie : Option String) (freshSid username password : String)
  | adminLogout (cookie : Option String) (freshSid : String)
  | clearFace (cookie : Option String) (freshSid : String)
  | deleteUser (cookie : Option String) (freshSid name : String)
  | editUser (cookie : Option String) (freshSid old_name new_name new_class new_roll : String)
deriving Repr

/-- The state transition of one API call. -/
def apply_op : Op → AppState → AppState
  | Op.capture c f i, s => (capture_face c f i s).2
  | Op.register c f cd n cl r i, s => (register_entry c f cd n cl r i s).2
  | Op.approve c f t i, s => (approve_face c f t i s).2
  | Op.endSession t, s => (end_session t s).2
  | Op.adminLogin c f u p, s => (admin_login c f u p s).2
  | Op.adminLogout c f, s => (admin_logout c f s).2
  | Op.clearFace c f, s => (clear_face c f s).2
  | Op.deleteUser c f n, s => (delete_user c f n s).2
  | Op.editUser c f o n cl r, s => (edit_user c f o n cl r s).2

/-- System invariant: registration names are unique and each document's
`name` field agrees with its storage key (both hold of every state the API
can build); at most one Active Session per name; every Active Session's name
refers to an existing Registration. -/
abbrev Inv (s : AppState) : Prop :=
  (keysOf s.registered_faces).Nodup ∧
  (∀ p ∈ s.registered_faces, p.2.name = p.1) ∧
  (keysOf s.active_sessions).Nodup ∧
  (∀ p ∈ s.active_sessions, p.1 ∈ keysOf s.registered_faces)

/-- The spec's description of the matching algorithm, stated independently of
the code: take the first registration whose stored fingerprint equals the
500-character prefix of the payload; if none matches, fall back to the first
registration in the returned set. Compared against the code's `matched_user`. -/
def spec_matched_name (users : List RegDoc) (payload : String) : Option String :=
  match users.find? (fun u => u.face_data = pyTake payload 500) with
  | some u => some u.name
  | none => users.head?.map (fun u => u.name)

/-- A 100-character face payload used in concrete witnesses. -/
def wPayload : String := String.mk (List.replicate 100 'a')

/-- A second, different 100-character face payload. -/
def wPayload2 : String := String.mk (List.replicate 100 'b')

/-- Concrete registration fixture whose fingerprint matches `wPayload`. -/
def wDocA : RegDoc :=
  { name := "Ana", face_data := pyTake wPayload 500, class_name := "5A", roll := "12",
    code := "AB12CD34EF56", registered_at := 0 }

/-- Concrete registration fixture not matching either payload. -/
def wDocB : RegDoc :=
  { name := "Bob", face_data := "zz", class_name := "5B", roll := "13",
    code := "FF00FF00FF00", registered_at := 1 }

/-- Concrete Active Session fixture for `wDocA`. -/
def wSess : SessionDoc := { name := "Ana", session_id := "#DBAAAA", started_at := 2 }

/-- Concrete state fixture: two registrations, one Active Session, one admin
Temp Capture record holding a captured payload. -/
def wState : AppState :=
  { registered_faces := [("Ana", wDocA), ("Bob", wDocB)],
    active_sessions := [("Ana", wSess)],
    console_logs := [],
    temp_faces := [("adm", { face_image := some wPayload, admin := true, created_at := some 0 })],
    now := 3 }

/-- The empty starting state (fresh `in_memory_storage`). -/
def wEmptyState : AppState :=
  { registered_faces := [], active_sessions := [], console_logs := [],
    temp_faces := [], now := 0 }

/-- A 501-character payload of the letter b. -/
def wLong1 : String := String.mk (List.replicate 501 'b')

/-- A 501-character payload agreeing with `wLong1` on its first 500
characters and differing at position 500. -/
def wLong2 : String := String.mk (List.replicate 500 'b' ++ ['c'])

/-- A two-entry log fixture in chronological order. -/
def wLogAB : List LogEntry := [{ ts := 0, action := "a" }, { ts := 1, action := "b" }]

/-- Concrete state fixture with a single registration matching `wPayload`
and an admin Temp Capture record, used to exercise an admin rename to the
empty name. -/
def wC1State : AppState :=
  { registered_faces := [("Ana", wDocA)],
    active_sessions := [],
    console_logs := [],
    temp_faces := [("adm", { face_image := none, admin := true, created_at := none })],
    now := 5 }

/-! ### Dictionary lemmas -/

@[simp]
theorem keysOf_nil {α : Type} : keysOf ([] : List (String × α)) = [] := rfl

@[simp]
theorem keysOf_cons {α : Type} (p : String × α) (l : List (String × α)) :
    keysOf (p :: l) = p.1 :: keysOf l := rfl

theorem lookupD_eq_none {α : Type} (l : List (String × α)) (k : String) :
    lookupD l k = none ↔ k ∉ keysOf l := by
  induction l with
  | nil => simp [lookupD]
  | cons p rest ih =>
    obtain ⟨k2, v⟩ := p
    by_cases h : k2 = k
    · subst h; simp [lookupD]
    · simp only [lookupD, if_neg h, keysOf_cons, List.mem_cons]
      rw [ih]
      constructor
      · intro hk hor
        rcases hor with hh | hh
        · exact h hh.symm
        · exact hk hh
      · intro hk hh
        exact hk (Or.inr hh)

theorem lookupD_isSome {α : Type} (l : List (String × α)) (k : String) :
    (lookupD l k).isSome = true ↔ k ∈ keysOf l := by
  rw [Option.isSome_iff_ne_none]
  constructor
  · intro hne
    by_contra hk
    exact hne ((lookupD_eq_none l k).mpr hk)
  · intro hk hnone
    exact ((lookupD_eq_none l k).mp hnone) hk

theorem lookupD_setD_self {α : Type} (l : List (String × α)) (k : String) (v : α) :
    lookupD (setD l k v) k = some v := by
  induction l with
  | nil => simp [setD, lookupD]
  | cons p rest ih =>
    obtain ⟨k2, v2⟩ := p
    by_cases h : k2 = k
    · subst h; simp [setD, lookupD]
    · simp [setD, lookupD, h, ih]

theorem lookupD_setD_ne {α : Type} (l : List (String × α)) (k k' : String) (v : α)
    (h : k' ≠ k) : lookupD (setD l k v) k' = lookupD l k' := by
  have hkk : k ≠ k' := Ne.symm h
  induction l with
  | nil => simp [setD, lookupD, hkk]
  | cons p rest ih =>
    obtain ⟨k2, v2⟩ := p
    by_cases h2 : k2 = k
    · subst h2
      simp [setD, lookupD, hkk]
    · simp [setD, lookupD, h2, ih]

theorem keysOf_setD_of_mem {α : Type} (l : List (String × α)) (k : String) (v : α)
    (h : k ∈ keysOf l) : keysOf (setD l k v) = keysOf l := by
  induction l with
  | nil => simp at h
  | cons p rest ih =>
    obtain ⟨k2, v2⟩ := p
    by_cases h2 : k2 = k
    · subst h2; simp [setD]
    · simp only [keysOf_cons] at h
      rcases List.mem_cons.mp h with h | h
      · exact absurd h.symm h2
      · simp [setD, h2, ih h]

theorem keysOf_setD_of_not_mem {α : Type} (l : List (String × α)) (k : String) (v : α)
    (h : k ∉ keysOf l) : keysOf (setD l k v) = keysOf l ++ [k] := by
  induction l with
  | nil => simp [setD]
  | cons p rest ih =>
    obtain ⟨k2, v2⟩ := p
    simp only [keysOf_cons, List.mem_cons] at h
    push_neg at h
    simp [setD, Ne.symm h.1, ih h.2]

theorem mem_setD {α : Type} (l : List (String × α)) (k : String) (v : α)
    (p : String × α) (hp : p ∈ setD l k v) : p ∈ l ∨ p = (k, v) := by
  induction l with
  | nil =>
    simp only [setD] at hp
    right
    simpa using hp
  | cons q rest ih =>
    obtain ⟨k2, v2⟩ := q
    by_cases h2 : k2 = k
    · subst h2
      simp only [setD, if_pos rfl] at hp
      rcases List.mem_cons.mp hp with hp | hp
      · right; simp [hp]
      · left; exact List.mem_cons.mpr (Or.inr hp)
    · simp only [setD, if_neg h2] at hp
      rcases List.mem_cons.mp hp with hp | hp
      · left; simp [hp]
      · rcases ih hp with h | h
        · left; exact List.mem_cons.mpr (Or.inr h)
        · right; exact h

theorem eraseD_sublist {α : Type} (l : List (String × α)) (k : String) :
    List.Sublist (eraseD l k) l := by
  induction l with
  | nil => simp [eraseD]
  | cons p rest ih =>
    obtain ⟨k2, v2⟩ := p
    by_cases h : k2 = k
    · simp [eraseD, h, List.sublist_cons_self (k2, v2) rest]
    · simpa [eraseD, h] using ih.cons₂ (k2, v2)

theorem mem_eraseD {α : Type} (l : List (String × α)) (k : String)
    (p : String × α) (hp : p ∈ eraseD l k) : p ∈ l :=
  (eraseD_sublist l k).subset hp

theorem keysOf_eraseD_sublist {α : Type} (l : List (String × α)) (k : String) :
    List.Sublist (keysOf (eraseD l k)) (keysOf l) :=
  (eraseD_sublist l k).map _

theorem mem_keysOf_eraseD_of_ne {α : Type} (l : List (String × α)) (k k' : String)
    (h : k' ∈ keysOf l) (hne : k' ≠ k) : k' ∈ keysOf (eraseD l k) := by
  induction l with
  | nil => simp at h
  | cons p rest ih =>
    obtain ⟨k2, v2⟩ := p
    by_cases h2 : k2 = k
    · subst h2
      simp only [keysOf_cons] at h
      rcases List.mem_cons.mp h with h | h
      · exact absurd h hne
      · simpa [eraseD] using h
    · simp only [keysOf_cons] at h
      rcases List.mem_cons.mp h with h | h
      · simp [eraseD, h2, h]
      · simp [eraseD, h2, ih h]

theorem not_mem_keysOf_eraseD {α : Type} (l : List (String × α)) (k : String)
    (hnd : (keysOf l).Nodup) : k ∉ keysOf (eraseD l k) := by
  induction l with
  | nil => simp [eraseD]
  | cons p rest ih =>
    obtain ⟨k2, v2⟩ := p
    simp only [keysOf_cons, List.nodup_cons] at hnd
    by_cases h2 : k2 = k
    · subst h2
      simpa [eraseD] using hnd.1
    · simp only [eraseD, if_neg h2, keysOf_cons, List.mem_cons]
      push_neg
      exact ⟨fun hh => h2 hh.symm, ih hnd.2⟩

theorem mem_eraseD_of_ne {α : Type} (l : List (String × α)) (k : String)
    (p : String × α) (hp : p ∈ l) (hne : p.1 ≠ k) : p ∈ eraseD l k := by
  induction l with
  | nil => simp at hp
  | cons q rest ih =>
    obtain ⟨k2, v2⟩ := q
    rcases List.mem_cons.mp hp with h | h
    · subst h
      simp only [eraseD, if_neg hne]
      exact List.mem_cons_self _ _
    · by_cases h2 : k2 = k
      · simpa [eraseD, h2] using h
      · simpa [eraseD, h2] using Or.inr (ih h)

theorem mem_keysOf_of_mem {α : Type} (l : List (String × α)) (p : String × α)
    (hp : p ∈ l) : p.1 ∈ keysOf l :=
  List.mem_map_of_mem _ hp

theorem matched_user_mem (users : List RegDoc) (f : String) (n : String)
    (h : matched_user users f = some n) : ∃ u ∈ users, u.name = n := by
  unfold matched_user exact_match at h
  by_cases hb : ((users.find? (fun u => u.face_data = pyTake f 500)).map (fun u => u.name)).getD "" = ""
  · rw [if_pos hb] at h
    cases users with
    | nil => simp at h
    | cons u rest =>
      exact ⟨u, List.mem_cons_self _ _, by simpa using h⟩
  · rw [if_neg hb] at h
    rcases Option.map_eq_some'.mp h with ⟨u, hu, hn⟩
    exact ⟨u, List.mem_of_find?_eq_some hu, hn⟩

/-! ### Frame lemmas: which components each helper leaves untouched -/

@[simp]
theorem log_action_registered (a : String) (s : AppState) :
    (log_action a s).registered_faces = s.registered_faces := rfl

@[simp]
theorem log_action_sessions (a : String) (s : AppState) :
    (log_action a s).active_sessions = s.active_sessions := rfl

@[simp]
theorem log_action_temp (a : String) (s : AppState) :
    (log_action a s).temp_faces = s.temp_faces := rfl

@[simp]
theorem clear_temp_face_registered (sid : String) (s : AppState) :
    (clear_temp_face sid s).registered_faces = s.registered_faces := by
  unfold clear_temp_face
  cases lookupD s.temp_faces sid <;> rfl

@[simp]
theorem clear_temp_face_sessions (sid : String) (s : AppState) :
    (clear_temp_face sid s).active_sessions = s.active_sessions := by
  unfold clear_temp_face
  cases lookupD s.temp_faces sid <;> rfl

/-- After `clear_temp_face`, the record for the token holds no payload. -/
theorem clear_temp_face_cleared (sid : String) (s : AppState) :
    (lookupD (clear_temp_face sid s).temp_faces sid).bind (fun t => t.face_image) = none := by
  unfold clear_temp_face
  cases h : lookupD s.temp_faces sid with
  | none => simp [h]
  | some t => simp [lookupD_setD_self]

/-- `clear_temp_face` only rewrites the one record, dropping its payload. -/
theorem clear_temp_face_lookup (sid : String) (s : AppState) (k : String) :
    lookupD (clear_temp_face sid s).temp_faces k =
      if k = sid then (lookupD s.temp_faces sid).map (fun t => { t with face_image := none })
      else lookupD s.temp_faces k := by
  unfold clear_temp_face
  cases h : lookupD s.temp_faces sid with
  | none =>
    by_cases hk : k = sid
    · subst hk; simp [h]
    · simp [hk]
  | some t =>
    by_cases hk : k = sid
    · subst hk; simp [lookupD_setD_self, h]
    · simp [lookupD_setD_ne _ _ _ _ hk, hk]

@[simp]
theorem fallback_step_registered (users : List RegDoc) (m0 : Option String) (s : AppState) :
    (fallback_step users m0 s).2.registered_faces = s.registered_faces := by
  unfold fallback_step
  split
  · cases users <;> simp
  · rfl

@[simp]
theorem fallback_step_sessions (users : List RegDoc) (m0 : Option String) (s : AppState) :
    (fallback_step users m0 s).2.active_sessions = s.active_sessions := by
  unfold fallback_step
  split
  · cases users <;> simp
  · rfl

@[simp]
theorem fallback_step_temp (users : List RegDoc) (m0 : Option String) (s : AppState) :
    (fallback_step users m0 s).2.temp_faces = s.temp_faces := by
  unfold fallback_step
  split
  · cases users <;> simp
  · rfl

/-- The matched value computed inside `approve_face` is `matched_user`. -/
theorem fallback_step_matched (users : List RegDoc) (f : String) (s : AppState) :
    (fallback_step users (exact_match users (pyTake f 500)) s).1 = matched_user users f := by
  unfold fallback_step matched_user
  by_cases hb : (exact_match users (pyTake f 500)).getD "" = ""
  · rw [if_pos hb, if_pos hb]
    cases users <;> rfl
  · rw [if_neg hb, if_neg hb]

/-- `approve_face` after its two guards. -/
theorem approve_face_eq (cookie : Option String) (fSid fTok face : String) (s : AppState)
    (hface : ¬(face = "" ∨ face.length < 100)) (hne : ¬s.registered_faces = []) :
    approve_face cookie fSid fTok face s =
      (if ((fallback_step (s.registered_faces.map (fun p => p.2))
              (exact_match (s.registered_faces.map (fun p => p.2)) (pyTake face 500)) s).1.getD "")
          = "" then
         (Except.error (ApiError.badRequest notRecognizedDetail),
          (fallback_step (s.registered_faces.map (fun p => p.2))
            (exact_match (s.registered_faces.map (fun p => p.2)) (pyTake face 500)) s).2)
       else
         approve_after_match cookie fSid fTok
           ((fallback_step (s.registered_faces.map (fun p => p.2))
              (exact_match (s.registered_faces.map (fun p => p.2)) (pyTake face 500)) s).1.getD "")
           (fallback_step (s.registered_faces.map (fun p => p.2))
              (exact_match (s.registered_faces.map (fun p => p.2)) (pyTake face 500)) s).2) := by
  unfold approve_face
  rw [if_neg hface, if_neg hne]

/-- `approve_after_match` when the registrant already has an Active Session. -/
theorem approve_after_match_existing (cookie : Option String) (fSid fTok n : String)
    (s : AppState) (es : SessionDoc) (ui : RegDoc)
    (hes : lookupD s.active_sessions n = some es)
    (hui : lookupD s.registered_faces n = some ui) :
    approve_after_match cookie fSid fTok n s =
      (Except.ok { session_id := es.session_id, name := n, class_name := ui.class_name,
                   roll := ui.roll, message := "Session already active" },
       log_action ("Session already active for: " ++ n)
         (clear_temp_face (get_or_create_session_id cookie fSid) s)) := by
  unfold approve_after_match
  rw [hes, hui]

/-- `approve_after_match` when no Active Session exists for the registrant. -/
theorem approve_after_match_new (cookie : Option String) (fSid fTok n : String)
    (s : AppState) (ui : RegDoc)
    (hes : lookupD s.active_sessions n = none)
    (hui : lookupD s.registered_faces n = some ui) :
    approve_after_match cookie fSid fTok n s =
      (Except.ok { session_id := fTok, name := n, class_name := ui.class_name,
                   roll := ui.roll, message := "Face approved successfully!" },
       log_action ("SESSION STARTED: " ++ n ++ " | Session: " ++ fTok)
         (clear_temp_face (get_or_create_session_id cookie fSid)
           { s with
             active_sessions := setD s.active_sessions n ⟨n, fTok, s.now⟩,
             now := s.now + 1 })) := by
  unfold approve_after_match
  rw [hes, hui]

/-! ### Invariant preservation -/

theorem Inv_of_eq {s t : AppState} (h : Inv s)
    (hreg : t.registered_faces = s.registered_faces)
    (hsess : t.active_sessions = s.active_sessions) : Inv t := by
  unfold Inv at h ⊢
  rw [hreg, hsess]
  exact h

theorem matched_in_keys (s : AppState) (f n : String)
    (h2 : ∀ p ∈ s.registered_faces, p.2.name = p.1)
    (hm : matched_user (s.registered_faces.map (fun p => p.2)) f = some n) :
    n ∈ keysOf s.registered_faces := by
  rcases matched_user_mem _ _ _ hm with ⟨u, hu, hname⟩
  rcases List.mem_map.mp hu with ⟨p, hp, hpu⟩
  have hn : p.1 = n := by rw [← h2 p hp, hpu, hname]
  rw [← hn]
  exact mem_keysOf_of_mem _ _ hp

theorem Inv_capture (c : Option String) (f i : String) (s : AppState) (h : Inv s) :
    Inv (capture_face c f i s).2 := by
  unfold capture_face
  split
  · exact h
  · exact Inv_of_eq h (by simp) (by simp)

theorem Inv_register (c : Option String) (f cd n cl r i : String) (s : AppState)
    (h : Inv s) : Inv (register_entry c f cd n cl r i s).2 := by
  simp only [register_entry]
  split
  · exact h
  · split
    · exact h
    · next fd =>
      split
      · exact h
      · split
        · exact h
        · next hdup =>
          have hnm : pyStrip n ∉ keysOf s.registered_faces := by
            intro hm
            exact hdup ((lookupD_isSome _ _).mpr hm)
          obtain ⟨h1, h2, h3, h4⟩ := h
          refine ⟨?_, ?_, ?_, ?_⟩ <;>
            simp only [log_action_registered, log_action_sessions,
              clear_temp_face_registered, clear_temp_face_sessions]
          · rw [keysOf_setD_of_not_mem _ _ _ hnm]
            refine h1.append (List.nodup_singleton _) ?_
            intro a ha ha'
            rw [List.mem_singleton] at ha'
            subst ha'
            exact hnm ha
          · intro p hp
            rcases mem_setD _ _ _ _ hp with hp | hp
            · exact h2 p hp
            · subst hp; rfl
          · exact h3
          · intro p hp
            rw [keysOf_setD_of_not_mem _ _ _ hnm]
            exact List.mem_append_left _ (h4 p hp)

theorem Inv_approve_after_match (cookie : Option String) (fSid fTok n : String)
    (s : AppState) (h : Inv s) (hn : n ∈ keysOf s.registered_faces) :
    Inv (approve_after_match cookie fSid fTok n s).2 := by
  unfold approve_after_match
  cases hes : lookupD s.active_sessions n with
  | some es =>
    cases hui : lookupD s.registered_faces n with
    | none => exact Inv_of_eq h (by simp) (by simp)
    | some ui => exact Inv_of_eq h (by simp) (by simp)
  | none =>
    have hns : n ∉ keysOf s.active_sessions := (lookupD_eq_none _ _).mp hes
    obtain ⟨h1, h2, h3, h4⟩ := h
    have hinv : Inv { s with
        active_sessions := setD s.active_sessions n ⟨n, fTok, s.now⟩,
        now := s.now + 1 } := by
      refine ⟨h1, h2, ?_, ?_⟩
      · simp only
        rw [keysOf_setD_of_not_mem _ _ _ hns]
        refine h3.append (List.nodup_singleton _) ?_
        intro a ha ha'
        rw [List.mem_singleton] at ha'
        subst ha'
        exact hns ha
      · intro p hp
        simp only at hp ⊢
        rcases mem_setD _ _ _ _ hp with hp | hp
        · exact h4 p hp
        · subst hp; exact hn
    cases hui : lookupD s.registered_faces n with
    | none => exact Inv_of_eq hinv (by simp) (by simp)
    | some ui => exact Inv_of_eq hinv (by simp) (by simp)

theorem Inv_approve (c : Option String) (f t i : String) (s : AppState) (h : Inv s) :
    Inv (approve_face c f t i s).2 := by
  simp only [approve_face]
  split
  · exact h
  · split
    · exact h
    · split
      · exact Inv_of_eq h (by simp) (by simp)
      · next hb =>
        set fb := fallback_step (s.registered_faces.map (fun p => p.2))
          (exact_match (s.registered_faces.map (fun p => p.2)) (pyTake i 500)) s with hfb
        have hInvFb : Inv fb.2 := Inv_of_eq h (by simp [hfb]) (by simp [hfb])
        have hmv : fb.1 = matched_user (s.registered_faces.map (fun p => p.2)) i := by
          rw [hfb]
          exact fallback_step_matched _ _ _
        have hsome : fb.1 = some (fb.1.getD "") := by
          cases hc : fb.1 with
          | none => rw [hc] at hb; simp at hb
          | some m => simp [hc]
        have hkey : (fb.1.getD "") ∈ keysOf fb.2.registered_faces := by
          have : (fb.1.getD "") ∈ keysOf s.registered_faces := by
            refine matched_in_keys s i _ h.2.1 ?_
            rw [← hmv]
            exact hsome
          have hregs : fb.2.registered_faces = s.registered_faces := by simp [hfb]
          rw [hregs]
          exact this
        exact Inv_approve_after_match c f t _ fb.2 hInvFb hkey

theorem Inv_end_session (t : String) (s : AppState) (h : Inv s) :
    Inv (end_session t s).2 := by
  unfold end_session
  cases hf : s.active_sessions.find? (fun p => p.2.session_id = t) with
  | none => exact h
  | some p =>
    obtain ⟨n, sd⟩ := p
    obtain ⟨h1, h2, h3, h4⟩ := h
    refine ⟨h1, h2, h3.sublist (keysOf_eraseD_sublist s.active_sessions n), ?_⟩
    intro q hq
    exact h4 q (mem_eraseD s.active_sessions n q hq)

theorem Inv_admin_login (c : Option String) (f u p : String) (s : AppState) (h : Inv s) :
    Inv (admin_login c f u p s).2 := by
  unfold admin_login
  split
  · exact Inv_of_eq h (by simp) (by simp)
  · exact Inv_of_eq h (by simp) (by simp)

theorem Inv_admin_logout (c : Option String) (f : String) (s : AppState) (h : Inv s) :
    Inv (admin_logout c f s).2 :=
  Inv_of_eq h (by simp [admin_logout]) (by simp [admin_logout])

theorem Inv_clear_face (c : Option String) (f : String) (s : AppState) (h : Inv s) :
    Inv (clear_face c f s).2 :=
  Inv_of_eq h (by simp [clear_face]) (by simp [clear_face])

theorem Inv_delete (c : Option String) (f n : String) (s : AppState) (h : Inv s) :
    Inv (delete_user c f n s).2 := by
  simp only [delete_user]
  split
  · exact h
  · cases hl : lookupD s.registered_faces n with
    | none => exact h
    | some u =>
      obtain ⟨h1, h2, h3, h4⟩ := h
      refine ⟨h1.sublist (keysOf_eraseD_sublist s.registered_faces n), ?_,
        h3.sublist (keysOf_eraseD_sublist s.active_sessions n), ?_⟩
      · intro p hp
        exact h2 p (mem_eraseD s.registered_faces n p hp)
      · intro p hp
        have hmem : p ∈ s.active_sessions := mem_eraseD s.active_sessions n p hp
        have hne : p.1 ≠ n := by
          intro hpn
          exact not_mem_keysOf_eraseD s.active_sessions n h3
            (hpn ▸ mem_keysOf_of_mem (eraseD s.active_sessions n) p hp)
        exact mem_keysOf_eraseD_of_ne s.registered_faces n p.1 (h4 p hmem) hne

theorem Inv_edit (c : Option String) (f o n cl r : String) (s : AppState) (h : Inv s) :
    Inv (edit_user c f o n cl r s).2 := by
  simp only [edit_user]
  split
  · exact h
  · split
    · exact h
    · next user hl =>
      have ho : o ∈ keysOf s.registered_faces :=
        (lookupD_isSome s.registered_faces o).mp (by rw [hl]; rfl)
      split
      · next heq =>
        subst heq
        obtain ⟨h1, h2, h3, h4⟩ := h
        refine ⟨?_, ?_, h3, ?_⟩ <;>
          simp only [log_action_registered, log_action_sessions]
        · rw [keysOf_setD_of_mem _ _ _ ho]
          exact h1
        · intro p hp
          rcases mem_setD _ _ _ _ hp with hp | hp
          · exact h2 p hp
          · subst hp; rfl
        · intro p hp
          rw [keysOf_setD_of_mem _ _ _ ho]
          exact h4 p hp
      · split
        · exact h
        · next hne hdup =>
          obtain ⟨h1, h2, h3, h4⟩ := h
          have hnew : n ∉ keysOf s.registered_faces := by
            intro hm
            exact hdup ((lookupD_isSome _ _).mpr hm)
          have hnewE : n ∉ keysOf (eraseD s.registered_faces o) := by
            intro hm
            exact hnew ((keysOf_eraseD_sublist _ _).subset hm)
          have hkeys : keysOf (setD (eraseD s.registered_faces o) n
              { user with name := n, class_name := cl, roll := r }) =
              keysOf (eraseD s.registered_faces o) ++ [n] :=
            keysOf_setD_of_not_mem _ _ _ hnewE
          have hregNodup : (keysOf (eraseD s.registered_faces o)).Nodup :=
            h1.sublist (keysOf_eraseD_sublist _ _)
          have hnewS : n ∉ keysOf s.active_sessions := by
            intro hm
            rcases List.mem_map.mp hm with ⟨q, hq, hq1⟩
            exact hnew (hq1 ▸ h4 q hq)
          have hRegNodup : (keysOf (setD (eraseD s.registered_faces o) n
              { user with name := n, class_name := cl, roll := r })).Nodup := by
            rw [hkeys]
            refine hregNodup.append (List.nodup_singleton _) ?_
            intro a ha ha'
            rw [List.mem_singleton] at ha'
            subst ha'
            exact hnewE ha
          have hRegKeyed : ∀ p ∈ setD (eraseD s.registered_faces o) n
              { user with name := n, class_name := cl, roll := r }, p.2.name = p.1 := by
            intro p hp
            rcases mem_setD _ _ _ _ hp with hp | hp
            · exact h2 p (mem_eraseD _ _ _ hp)
            · subst hp; rfl
          have hFKmem : ∀ p ∈ s.active_sessions, p.1 ≠ o →
              p.1 ∈ keysOf (setD (eraseD s.registered_faces o) n
                { user with name := n, class_name := cl, roll := r }) := by
            intro p hp hpo
            rw [hkeys]
            exact List.mem_append_left _
              (mem_keysOf_eraseD_of_ne _ _ _ (h4 p hp) hpo)
          have hNmem : n ∈ keysOf (setD (eraseD s.registered_faces o) n
              { user with name := n, class_name := cl, roll := r }) := by
            rw [hkeys]
            exact List.mem_append_right _ (List.mem_singleton_self _)
          refine ⟨hRegNodup, hRegKeyed, ?_, ?_⟩ <;>
            simp only [log_action_registered, log_action_sessions]
          · cases hsl : lookupD s.active_sessions o with
            | none => exact h3
            | some sd =>
              have hnewSE : n ∉ keysOf (eraseD s.active_sessions o) := by
                intro hm
                exact hnewS ((keysOf_eraseD_sublist _ _).subset hm)
              have hgoal : (keysOf (setD (eraseD s.active_sessions o) n
                  { sd with name := n })).Nodup := by
                rw [keysOf_setD_of_not_mem _ _ _ hnewSE]
                refine (h3.sublist (keysOf_eraseD_sublist _ _)).append
                  (List.nodup_singleton _) ?_
                intro a ha ha'
                rw [List.mem_singleton] at ha'
                subst ha'
                exact hnewSE ha
              exact hgoal
          · cases hsl : lookupD s.active_sessions o with
            | none =>
              intro p hp
              have hpo : p.1 ≠ o := by
                intro hpo
                exact ((lookupD_eq_none _ _).mp hsl) (hpo ▸ mem_keysOf_of_mem _ _ hp)
              exact hFKmem p hp hpo
            | some sd =>
              have hgoal : ∀ p ∈ setD (eraseD s.active_sessions o) n { sd with name := n },
                  p.1 ∈ keysOf (setD (eraseD s.registered_faces o) n
                    { user with name := n, class_name := cl, roll := r }) := by
                intro p hp
                rcases mem_setD _ _ _ _ hp with hp | hp
                · have hmem : p ∈ s.active_sessions := mem_eraseD _ _ _ hp
                  have hpo : p.1 ≠ o := by
                    intro hpo
                    exact not_mem_keysOf_eraseD _ _ h3 (hpo ▸ mem_keysOf_of_mem _ _ hp)
                  exact hFKmem p hmem hpo
                · subst hp
                  exact hNmem
              exact hgoal

/-! ### Matching lemmas for the approval path -/

theorem matched_user_of_names (users : List RegDoc) (f : String)
    (hU : users ≠ []) (hnames : ∀ u ∈ users, u.name ≠ "") :
    matched_user users f = spec_matched_name users f ∧
      ∃ nm, spec_matched_name users f = some nm ∧ nm ≠ "" := by
  unfold matched_user spec_matched_name exact_match
  cases hfind : users.find? (fun u => u.face_data = pyTake f 500) with
  | some u =>
    have hu : u.name ≠ "" := hnames u (List.mem_of_find?_eq_some hfind)
    rw [if_neg (by simpa using hu)]
    exact ⟨rfl, u.name, rfl, hu⟩
  | none =>
    rw [if_pos (by simp)]
    cases users with
    | nil => exact absurd rfl hU
    | cons u rest =>
      exact ⟨rfl, u.name, rfl, hnames u (List.mem_cons_self _ _)⟩

theorem approve_after_match_ok (cookie : Option String) (fSid fTok n : String)
    (s : AppState) (ui : RegDoc) (hui : lookupD s.registered_faces n = some ui) :
    ∃ r s2, approve_after_match cookie fSid fTok n s = (Except.ok r, s2) ∧ r.name = n := by
  cases hes : lookupD s.active_sessions n with
  | some es =>
    exact ⟨_, _, approve_after_match_existing cookie fSid fTok n s es ui hes hui, rfl⟩
  | none =>
    exact ⟨_, _, approve_after_match_new cookie fSid fTok n s ui hes hui, rfl⟩

theorem length_guard_of_ge (face : String) (hlen : 100 ≤ face.length) :
    ¬(face = "" ∨ face.length < 100) := by
  rintro (h1 | h2)
  · rw [h1] at hlen
    exact absurd hlen (by decide)
  · omega

/-! ### Claim theorems -/

/-- Claim C6: every operation preserves the invariant that each registrant has
at most one Active Session and every Active Session's name refers to an
existing Registration (`Inv` also carries the registration-store
well-formedness conjuncts — unique names, document name field equal to the
storage key — which the data model guarantees and the induction needs). -/
theorem C6_inv_preserved (op : Op) (s : AppState) (h : Inv s) : Inv (apply_op op s) := by
  cases op with
  | capture c f i => exact Inv_capture c f i s h
  | register c f cd n cl r i => exact Inv_register c f cd n cl r i s h
  | approve c f t i => exact Inv_approve c f t i s h
  | endSession t => exact Inv_end_session t s h
  | adminLogin c f u p => exact Inv_admin_login c f u p s h
  | adminLogout c f => exact Inv_admin_logout c f s h
  | clearFace c f => exact Inv_clear_face c f s h
  | deleteUser c f n => exact Inv_delete c f n s h
  | editUser c f o n cl r => exact Inv_edit c f o n cl r s h

/-- Witness for C6: a concrete admin rename that re-keys an Active Session. -/
theorem C6_inv_preserved_witness :
    Inv wState ∧ Inv (apply_op (Op.editUser (some "adm") "x" "Ana" "Cleo" "6A" "9") wState) :=
  ⟨by decide, C6_inv_preserved (Op.editUser (some "adm") "x" "Ana" "Cleo" "6A" "9") wState (by decide)⟩

/-- Claim C1 counterexample: the claim fails on a reachable state with a
non-empty registration set. An admin rename to the empty name (`edit_user`
validates neither name for blankness) succeeds and leaves one registration,
whose name is the falsy `""`; a subsequent `approve_face` with a 100-character
payload whose fingerprint matches that registration exactly then returns the
not-recognized rejection even though a registration exists — the code treats
the matched empty name as no match at both truthiness checks. -/
theorem C1_counterexample :
    (edit_user (some "adm") "x" "Ana" "" "5A" "12" wC1State).1 =
      Except.ok "User updated successfully" ∧
    (edit_user (some "adm") "x" "Ana" "" "5A" "12" wC1State).2.registered_faces ≠ [] ∧
    (approve_face none "cs" "#DBX" wPayload
        (edit_user (some "adm") "x" "Ana" "" "5A" "12" wC1State).2).1 =
      Except.error (ApiError.badRequest notRecognizedDetail) := by
  refine ⟨rfl, by decide, rfl⟩

/-- Claim C1 (amended): provided every stored registration name is non-blank
— true of every state built by register-entry alone, though an admin rename
to the empty string can break it — a payload of length at least 100 is
rejected with the no-registered-users error exactly when there are zero
registrations; with at least one registration `approve_face` succeeds and
resolves the registrant the spec describes: the first exact fingerprint match
in storage order, else the first registration in the returned set. -/
theorem C1_matching (cookie : Option String) (fSid fTok face : String) (s : AppState)
    (hInv : Inv s) (hlen : 100 ≤ face.length)
    (hnames : ∀ p ∈ s.registered_faces, p.2.name ≠ "") :
    (s.registered_faces = [] →
      approve_face cookie fSid fTok face s =
        (Except.error (ApiError.badRequest noUsersDetail), s)) ∧
    (s.registered_faces ≠ [] →
      ∃ r s2, approve_face cookie fSid fTok face s = (Except.ok r, s2) ∧
        some r.name = spec_matched_name (s.registered_faces.map (fun p => p.2)) face) := by
  have hguard := length_guard_of_ge face hlen
  constructor
  · intro hempty
    unfold approve_face
    rw [if_neg hguard, if_pos hempty]
  · intro hne
    have husers : s.registered_faces.map (fun p => p.2) ≠ [] := by
      intro hh
      exact hne (List.map_eq_nil_iff.mp hh)
    have hnamesU : ∀ u ∈ s.registered_faces.map (fun p => p.2), u.name ≠ "" := by
      intro u hu
      rcases List.mem_map.mp hu with ⟨p, hp, hpu⟩
      rw [← hpu]
      exact hnames p hp
    obtain ⟨hmatchEq, nm, hspec, hnm⟩ :=
      matched_user_of_names (s.registered_faces.map (fun p => p.2)) face husers hnamesU
    rw [approve_face_eq cookie fSid fTok face s hguard hne]
    have hfb1 : (fallback_step (s.registered_faces.map (fun p => p.2))
        (exact_match (s.registered_faces.map (fun p => p.2)) (pyTake face 500)) s).1 = some nm := by
      rw [fallback_step_matched, hmatchEq]
      exact hspec
    rw [hfb1]
    simp only [Option.getD_some]
    rw [if_neg hnm]
    have hkey : nm ∈ keysOf s.registered_faces :=
      matched_in_keys s face nm hInv.2.1 (hmatchEq.trans hspec)
    have hkey2 : nm ∈ keysOf (fallback_step (s.registered_faces.map (fun p => p.2))
        (exact_match (s.registered_faces.map (fun p => p.2)) (pyTake face 500)) s).2.registered_faces := by
      simpa using hkey
    obtain ⟨ui, hui⟩ := Option.isSome_iff_exists.mp ((lookupD_isSome _ _).mpr hkey2)
    obtain ⟨r, s2, happ, hname⟩ := approve_after_match_ok cookie fSid fTok nm _ ui hui
    refine ⟨r, s2, happ, ?_⟩
    rw [hname, hspec]

/-- Witness for C1: the concrete two-registration state, with a payload whose
fingerprint matches the first registration exactly. -/
theorem C1_matching_witness :
    ∃ r s2, approve_face none "cs" "#DBX" wPayload wState = (Except.ok r, s2) ∧
      some r.name = spec_matched_name (wState.registered_faces.map (fun p => p.2)) wPayload :=
  (C1_matching none "cs" "#DBX" wPayload wState (by decide) (by decide) (by decide)).2
    (by decide)

/-- Claim C2: a second approval for a registrant who already has an Active
Session returns that session's token, leaves the set of Active Sessions
unchanged, and still clears the caller's Temp Capture face payload. -/
theorem C2_idempotent (cookie : Option String) (fSid fTok face n : String) (s : AppState)
    (es : SessionDoc) (hInv : Inv s) (hlen : 100 ≤ face.length)
    (hm : matched_user (s.registered_faces.map (fun p => p.2)) face = some n) (hn : n ≠ "")
    (hes : lookupD s.active_sessions n = some es) :
    ∃ r s2, approve_face cookie fSid fTok face s = (Except.ok r, s2) ∧
      r.session_id = es.session_id ∧
      s2.active_sessions = s.active_sessions ∧
      (lookupD s2.temp_faces (get_or_create_session_id cookie fSid)).bind
        (fun t => t.face_image) = none := by
  have hguard := length_guard_of_ge face hlen
  have hne : s.registered_faces ≠ [] := by
    intro hh
    rw [hh] at hm
    simp [matched_user, exact_match] at hm
  rw [approve_face_eq cookie fSid fTok face s hguard hne]
  have hfb1 : (fallback_step (s.registered_faces.map (fun p => p.2))
      (exact_match (s.registered_faces.map (fun p => p.2)) (pyTake face 500)) s).1 = some n := by
    rw [fallback_step_matched]
    exact hm
  rw [hfb1]
  simp only [Option.getD_some]
  rw [if_neg hn]
  have hes2 : lookupD (fallback_step (s.registered_faces.map (fun p => p.2))
      (exact_match (s.registered_faces.map (fun p => p.2)) (pyTake face 500)) s).2.active_sessions n
      = some es := by
    rw [fallback_step_sessions]
    exact hes
  have hkey : n ∈ keysOf s.registered_faces := matched_in_keys s face n hInv.2.1 hm
  have hkey2 : n ∈ keysOf (fallback_step (s.registered_faces.map (fun p => p.2))
      (exact_match (s.registered_faces.map (fun p => p.2)) (pyTake face 500)) s).2.registered_faces := by
    simpa using hkey
  obtain ⟨ui, hui⟩ := Option.isSome_iff_exists.mp ((lookupD_isSome _ _).mpr hkey2)
  rw [approve_after_match_existing cookie fSid fTok n _ es ui hes2 hui]
  refine ⟨_, _, rfl, rfl, ?_, ?_⟩
  · simp
  · rw [log_action_temp]
    exact clear_temp_face_cleared _ _

/-- Witness for C2: approving `wPayload` a second time while `Ana` already
holds the Active Session `wSess`. -/
theorem C2_idempotent_witness :
    ∃ r s2, approve_face (some "adm") "cs" "#DBY" wPayload wState = (Except.ok r, s2) ∧
      r.session_id = wSess.session_id ∧
      s2.active_sessions = wState.active_sessions ∧
      (lookupD s2.temp_faces (get_or_create_session_id (some "adm") "cs")).bind
        (fun t => t.face_image) = none :=
  C2_idempotent (some "adm") "cs" "#DBY" wPayload "Ana" wState wSess (by decide) (by decide)
    (by decide) (by decide) (by decide)

theorem erase_find_session (l : List (String × SessionDoc)) (t : String)
    (hnd : (keysOf l).Nodup) (htok : (l.map (fun p => p.2.session_id)).Nodup)
    (n : String) (sd : SessionDoc)
    (hf : l.find? (fun p => p.2.session_id = t) = some (n, sd)) :
    (∀ q ∈ eraseD l n, q.2.session_id ≠ t) ∧
    (∀ q ∈ l, q.2.session_id ≠ t → q ∈ eraseD l n) := by
  induction l with
  | nil => simp at hf
  | cons hd rest ih =>
    obtain ⟨k, d⟩ := hd
    simp only [keysOf_cons, List.nodup_cons] at hnd
    simp only [List.map_cons, List.nodup_cons] at htok
    by_cases hdt : d.session_id = t
    · rw [List.find?_cons_of_pos _ (by simpa using hdt)] at hf
      injection hf with hkd
      injection hkd with hk hd2
      subst hk
      constructor
      · intro q hq hqt
        have hqr : q ∈ rest := by simpa [eraseD] using hq
        refine htok.1 ?_
        rw [hdt]
        exact hqt ▸ List.mem_map_of_mem _ hqr
      · intro q hq hqt
        rcases List.mem_cons.mp hq with hq1 | hq2
        · exact absurd (by rw [hq1]; exact hdt) hqt
        · simpa [eraseD] using hq2
    · rw [List.find?_cons_of_neg _ (by simpa using hdt)] at hf
      have hmem := List.mem_of_find?_eq_some hf
      have hkn : ¬k = n := by
        intro hkn
        subst hkn
        exact hnd.1 (mem_keysOf_of_mem rest (k, sd) hmem)
      have herase : eraseD ((k, d) :: rest) n = (k, d) :: eraseD rest n := by
        simp [eraseD, hkn]
      obtain ⟨ih1, ih2⟩ := ih hnd.2 htok.2 hf
      constructor
      · intro q hq
        rw [herase] at hq
        rcases List.mem_cons.mp hq with hq1 | hq2
        · rw [hq1]
          exact hdt
        · exact ih1 q hq2
      · intro q hq hqt
        rw [herase]
        rcases List.mem_cons.mp hq with hq1 | hq2
        · rw [hq1]
          exact List.mem_cons_self _ _
        · exact List.mem_cons.mpr (Or.inr (ih2 q hq2 hqt))

/-- Claim C7: `end_session` deletes the Active Session holding the supplied
token and succeeds when one exists (removing no other session), reports
not-found when none does, and a second call with the same token right after a
successful one reports not-found. Hypotheses: unique session names and
tokens, the system invariants. -/
theorem C7_end_session (t : String) (s : AppState)
    (hnd : (keysOf s.active_sessions).Nodup)
    (htok : (s.active_sessions.map (fun p => p.2.session_id)).Nodup) :
    ((∀ p ∈ s.active_sessions, p.2.session_id ≠ t) →
      end_session t s = (Except.error (ApiError.notFound sessionNotFoundDetail), s)) ∧
    (∀ p ∈ s.active_sessions, p.2.session_id = t →
      (end_session t s).1 = Except.ok "Session ended successfully" ∧
      (∀ q ∈ (end_session t s).2.active_sessions, q.2.session_id ≠ t) ∧
      (∀ q ∈ s.active_sessions, q.2.session_id ≠ t →
        q ∈ (end_session t s).2.active_sessions) ∧
      end_session t (end_session t s).2 =
        (Except.error (ApiError.notFound sessionNotFoundDetail), (end_session t s).2)) := by
  constructor
  · intro hnone
    unfold end_session
    rw [List.find?_eq_none.mpr (fun x hx => by simpa using hnone x hx)]
  · intro p hp hpt
    cases hf : s.active_sessions.find? (fun q => q.2.session_id = t) with
    | none =>
      exact absurd (by simpa using hpt) (by simpa using List.find?_eq_none.mp hf p hp)
    | some q =>
      obtain ⟨n, sd⟩ := q
      obtain ⟨hgone, hkeep⟩ := erase_find_session s.active_sessions t hnd htok n sd hf
      have hres : end_session t s = (Except.ok "Session ended successfully",
          log_action ("SESSION ENDED: " ++ n ++ " | " ++ t)
            { s with active_sessions := eraseD s.active_sessions n }) := by
        unfold end_session
        rw [hf]
      rw [hres]
      refine ⟨rfl, ?_, ?_, ?_⟩
      · intro q hq
        exact hgone q (by simpa using hq)
      · intro q hq hqt
        simpa using hkeep q hq hqt
      · unfold end_session
        have hfind2 : (log_action ("SESSION ENDED: " ++ n ++ " | " ++ t)
            { s with active_sessions := eraseD s.active_sessions n }).active_sessions.find?
              (fun q => q.2.session_id = t) = none := by
          rw [log_action_sessions]
          exact List.find?_eq_none.mpr (fun x hx => by simpa using hgone x (by simpa using hx))
        rw [hfind2]

/-- Witness for C7: ending the concrete session `#DBAAAA` of `wState`. -/
theorem C7_end_session_witness :
    (end_session "#DBAAAA" wState).1 = Except.ok "Session ended successfully" ∧
    (∀ q ∈ (end_session "#DBAAAA" wState).2.active_sessions, q.2.session_id ≠ "#DBAAAA") ∧
    (∀ q ∈ wState.active_sessions, q.2.session_id ≠ "#DBAAAA" →
      q ∈ (end_session "#DBAAAA" wState).2.active_sessions) ∧
    end_session "#DBAAAA" (end_session "#DBAAAA" wState).2 =
      (Except.error (ApiError.notFound sessionNotFoundDetail),
        (end_session "#DBAAAA" wState).2) :=
  (C7_end_session "#DBAAAA" wState (by decide) (by decide)).2 ("Ana", wSess)
    (by decide) (by decide)

/-! ### Audit log lemmas -/

theorem insertByTsDesc_append (e : LogEntry) (l : List LogEntry)
    (h : ∀ x ∈ l, e.ts < x.ts) : insertByTsDesc e l = l ++ [e] := by
  induction l with
  | nil => rfl
  | cons x xs ih =>
    have hx : e.ts < x.ts := h x (List.mem_cons_self _ _)
    simp only [insertByTsDesc]
    rw [if_neg (by omega)]
    rw [ih (fun y hy => h y (List.mem_cons.mpr (Or.inr hy)))]
    rfl

theorem sortByTsDesc_of_strictMono (l : List LogEntry)
    (h : l.Pairwise (fun a b => a.ts < b.ts)) : sortByTsDesc l = l.reverse := by
  induction l with
  | nil => rfl
  | cons x xs ih =>
    rw [List.pairwise_cons] at h
    simp only [sortByTsDesc]
    rw [ih h.2, insertByTsDesc_append x xs.reverse
      (fun y hy => h.1 y (List.mem_reverse.mp hy))]
    rw [List.reverse_cons]

theorem log_action_logs (a : String) (s : AppState) :
    (log_action a s).console_logs =
      if (s.console_logs ++ [({ ts := s.now, action := a } : LogEntry)]).length > 100 then
        (s.console_logs ++ [({ ts := s.now, action := a } : LogEntry)]).drop
          ((s.console_logs ++ [({ ts := s.now, action := a } : LogEntry)]).length - 100)
      else s.console_logs ++ [({ ts := s.now, action := a } : LogEntry)] := rfl

theorem log_action_length_le (a : String) (s : AppState)
    (_h : s.console_logs.length ≤ 100) :
    (log_action a s).console_logs.length ≤ 100 := by
  rw [log_action_logs]
  split
  · rw [List.length_drop]
    omega
  · next hle =>
    rw [List.length_append] at hle ⊢
    omega

theorem foldl_log_length_le (acts : List String) (s : AppState)
    (h : s.console_logs.length ≤ 100) :
    ((acts.foldl (fun st a => log_action a st) s).console_logs).length ≤ 100 := by
  induction acts generalizing s with
  | nil => exact h
  | cons a rest ih => exact ih (log_action a s) (log_action_length_le a s h)

/-- Claim C3 counterexample: after two appends from the empty state, the
in-memory admin log read returns the entries oldest-first — its first element
is the older entry — so the read is not in descending (most-recent-first)
time order as the claim asserts for the admin read. -/
theorem C3_counterexample :
    ¬ (admin_logs_view false
        (log_action "second" (log_action "first" wEmptyState)).console_logs).Pairwise
      (fun a b => b.ts ≤ a.ts) := by decide

/-- Claim C3 (amended): any sequence of appends keeps the stored audit log at
100 entries or fewer; the durable-backend admin read returns the 50 most
recent entries most-recent-first (for strictly increasing timestamps it is
the reversed chronological list, truncated to 50); the in-memory fallback
read returns the most recent `min 50 n` entries as a suffix of the
chronological list, i.e. in ascending (oldest-first) order. -/
theorem C3_amended :
    (∀ (acts : List String) (s : AppState), s.console_logs.length ≤ 100 →
      ((acts.foldl (fun st a => log_action a st) s).console_logs).length ≤ 100) ∧
    (∀ logs : List LogEntry, logs.Pairwise (fun a b => a.ts < b.ts) →
      admin_logs_view true logs = logs.reverse.take 50) ∧
    (∀ logs : List LogEntry,
      List.IsSuffix (admin_logs_view false logs) logs ∧
      (admin_logs_view false logs).length = min 50 logs.length) := by
  refine ⟨fun acts s h => foldl_log_length_le acts s h, ?_, ?_⟩
  · intro logs h
    unfold admin_logs_view
    rw [if_pos rfl, sortByTsDesc_of_strictMono logs h]
  · intro logs
    unfold admin_logs_view
    rw [if_neg (by simp)]
    refine ⟨List.drop_suffix _ _, ?_⟩
    rw [List.length_drop]
    omega

/-- Witness for C3 (amended), at two concrete appends and a two-entry log. -/
theorem C3_amended_witness :
    ((["a", "b"].foldl (fun st a => log_action a st) wEmptyState).console_logs).length ≤ 100 ∧
    admin_logs_view true wLogAB = wLogAB.reverse.take 50 ∧
    List.IsSuffix (admin_logs_view false wLogAB) wLogAB :=
  ⟨C3_amended.1 ["a", "b"] wEmptyState (by decide),
   C3_amended.2.1 wLogAB (by decide),
   (C3_amended.2.2 wLogAB).1⟩

/-- Claim C4 counterexample: with `Ana` already registered, a register-entry
call for `Ana` with a blank class field is rejected with the blank-fields
validation error, which is not the duplicate-name conflict error the claim
asserts for every call carrying an already-registered name. -/
theorem C4_counterexample :
    (lookupD wState.registered_faces (pyStrip "Ana")).isSome = true ∧
    register_entry none "cs" "C9C9" "Ana" "" "12" "x" wState =
      (Except.error (ApiError.badRequest fieldsRequiredDetail), wState) ∧
    fieldsRequiredDetail ≠ conflictDetail (pyStrip "Ana") := by
  refine ⟨by decide, rfl, by decide⟩

/-- Claim C4 (amended): when the trimmed name is already registered and the
call is otherwise well-formed — non-blank trimmed name, class and roll and a
usable face payload — register-entry is rejected with the duplicate-name
conflict error and the state is unchanged; moreover every register-entry call
whose trimmed name is already registered leaves the registration store
unchanged (blank fields or a missing payload are rejected with a validation
error before the conflict check). -/
theorem C4_conflict (cookie : Option String) (fSid fCode name : String) (s : AppState)
    (d : RegDoc) (hreg : lookupD s.registered_faces (pyStrip name) = some d) :
    (∀ cls rl fi, pyStrip name ≠ "" → pyStrip cls ≠ "" → pyStrip rl ≠ "" →
      (∃ fd, effective_face fi (get_or_create_session_id cookie fSid) s = some fd ∧ fd ≠ "") →
      register_entry cookie fSid fCode name cls rl fi s =
        (Except.error (ApiError.badRequest (conflictDetail (pyStrip name))), s)) ∧
    (∀ cls rl fi,
      (register_entry cookie fSid fCode name cls rl fi s).2.registered_faces =
        s.registered_faces) := by
  constructor
  · rintro cls rl fi hn hc hr ⟨fd, hfd, hfdne⟩
    simp only [register_entry]
    rw [if_neg (by push_neg; exact ⟨hn, hc, hr⟩)]
    split
    · next h0 =>
      rw [hfd] at h0
      exact Option.noConfusion h0
    · next fd2 h0 =>
      rw [hfd] at h0
      injection h0 with h02
      subst h02
      rw [if_neg hfdne]
      rw [if_pos (by rw [hreg]; rfl)]
  · intro cls rl fi
    simp only [register_entry]
    split
    · rfl
    · split
      · rfl
      · next fd h0 =>
        split
        · rfl
        · split
          · rfl
          · next hdup =>
            have hs : (lookupD s.registered_faces (pyStrip name)).isSome = true := by
              rw [hreg]; rfl
            exact absurd hs hdup

/-- Witness for C4 (amended): the conflict rejection on a well-formed call
and the unchanged store on a blank-field call, both against `wState`. -/
theorem C4_conflict_witness :
    register_entry none "cs" "C9C9" "Ana" "5A" "12" "x" wState =
      (Except.error (ApiError.badRequest (conflictDetail (pyStrip "Ana"))), wState) ∧
    (register_entry none "cs" "C9C9" "Ana" "" "12" "x" wState).2.registered_faces =
      wState.registered_faces :=
  ⟨(C4_conflict none "cs" "C9C9" "Ana" wState wDocA (by decide)).1 "5A" "12" "x"
      (by decide) (by decide) (by decide) ⟨"x", by decide, by decide⟩,
   (C4_conflict none "cs" "C9C9" "Ana" wState wDocA (by decide)).2 "" "12" "x"⟩

/-- Claim C5: an admin-authorized rename of an existing registrant onto a
different name that is already registered is rejected as a conflict, and the
state — both registrations, all Active Sessions — is unchanged. -/
theorem C5_edit_conflict (cookie : Option String) (fSid old new cls rl : String)
    (s : AppState) (u v : RegDoc)
    (hadmin : is_admin (get_or_create_session_id cookie fSid) s = true)
    (hold : lookupD s.registered_faces old = some u)
    (hne : old ≠ new)
    (hnew : lookupD s.registered_faces new = some v) :
    edit_user cookie fSid old new cls rl s =
      (Except.error (ApiError.badRequest (existsDetail new)), s) := by
  simp only [edit_user]
  split
  · next hadm =>
    rw [hadmin] at hadm
    exact absurd hadm (by simp)
  · split
    · next hl =>
      rw [hold] at hl
      exact Option.noConfusion hl
    · next user hl =>
      split
      · rfl
      · next hdup =>
        have hs : (lookupD s.registered_faces new).isSome = true := by
          rw [hnew]; rfl
        exact absurd hs hdup

/-- Witness for C5: renaming `Ana` to the already-registered `Bob` with the
admin Temp Capture record of `wState`. -/
theorem C5_edit_conflict_witness :
    edit_user (some "adm") "x" "Ana" "Bob" "6A" "9" wState =
      (Except.error (ApiError.badRequest (existsDetail "Bob")), wState) :=
  C5_edit_conflict (some "adm") "x" "Ana" "Bob" "6A" "9" wState wDocA wDocB (by decide)
    (by decide) (by decide) (by decide)

/-- The full effect of a successful `register_entry` call. -/
theorem register_entry_success (cookie : Option String) (fSid fCode name cls rl fi : String)
    (s : AppState) (fd : String)
    (hn : pyStrip name ≠ "") (hc : pyStrip cls ≠ "") (hr : pyStrip rl ≠ "")
    (heff : effective_face fi (get_or_create_session_id cookie fSid) s = some fd)
    (hfd : fd ≠ "")
    (hfree : lookupD s.registered_faces (pyStrip name) = none) :
    register_entry cookie fSid fCode name cls rl fi s =
      (Except.ok { code := fCode, name := pyStrip name },
       log_action ("NEW REGISTRATION: " ++ pyStrip name ++ " | Class: " ++ pyStrip cls ++
           " | Roll: " ++ pyStrip rl ++ " | Code: " ++ fCode)
         (clear_temp_face (get_or_create_session_id cookie fSid)
           { s with
             registered_faces := setD s.registered_faces (pyStrip name)
               ⟨pyStrip name, pyTake fd 500, pyStrip cls, pyStrip rl, fCode, s.now⟩,
             now := s.now + 1 })) := by
  simp only [register_entry]
  rw [if_neg (by push_neg; exact ⟨hn, hc, hr⟩)]
  split
  · next h0 =>
    rw [heff] at h0
    exact Option.noConfusion h0
  · next fd2 h0 =>
    rw [heff] at h0
    injection h0 with h02
    subst h02
    rw [if_neg hfd]
    rw [if_neg (by rw [hfree]; simp)]

/-- Claim C8: a successful registration clears exactly the face-payload field
of the caller's Temp Capture record: the record itself survives with its
admin flag and creation timestamp intact, and the records of all other
browser-session tokens are untouched. -/
theorem C8_register_clears_only_payload (cookie : Option String)
    (fSid fCode name cls rl fi : String) (s : AppState) (fd : String)
    (hn : pyStrip name ≠ "") (hc : pyStrip cls ≠ "") (hr : pyStrip rl ≠ "")
    (heff : effective_face fi (get_or_create_session_id cookie fSid) s = some fd)
    (hfd : fd ≠ "")
    (hfree : lookupD s.registered_faces (pyStrip name) = none) :
    (register_entry cookie fSid fCode name cls rl fi s).1 =
      Except.ok { code := fCode, name := pyStrip name } ∧
    ∀ k, lookupD (register_entry cookie fSid fCode name cls rl fi s).2.temp_faces k =
      if k = get_or_create_session_id cookie fSid then
        (lookupD s.temp_faces (get_or_create_session_id cookie fSid)).map
          (fun t => { t with face_image := none })
      else lookupD s.temp_faces k := by
  rw [register_entry_success cookie fSid fCode name cls rl fi s fd hn hc hr heff hfd hfree]
  refine ⟨rfl, ?_⟩
  intro k
  rw [log_action_temp, clear_temp_face_lookup]

/-- Witness for C8: registering `Cara` inline while the admin Temp Capture
record of `wState` holds a payload; the record keeps its admin flag and
timestamp and loses only the payload. -/
theorem C8_register_clears_only_payload_witness :
    (register_entry (some "adm") "cs" "C7C7" "Cara" "7B" "21" "x" wState).1 =
      Except.ok { code := "C7C7", name := pyStrip "Cara" } ∧
    lookupD (register_entry (some "adm") "cs" "C7C7" "Cara" "7B" "21" "x" wState).2.temp_faces
        "adm" =
      (lookupD wState.temp_faces "adm").map (fun t => { t with face_image := none }) := by
  have h := C8_register_clears_only_payload (some "adm") "cs" "C7C7" "Cara" "7B" "21" "x"
    wState "x" (by decide) (by decide) (by decide) (by decide) (by decide) (by decide)
  refine ⟨h.1, ?_⟩
  rw [h.2 "adm"]
  rfl

/-- Claim C9: matching depends only on the first 500 characters of the
payload: registration stores exactly the 500-character slice as the
fingerprint, and from a fixed state two approvals whose payloads (each of
length at least 100) agree on their first 500 characters produce identical
results — in particular they resolve the same matched registrant. -/
theorem C9_prefix_only (cookie : Option String) (fSid fTok fCode name cls rl fi : String)
    (s : AppState) (fd : String)
    (hn : pyStrip name ≠ "") (hc : pyStrip cls ≠ "") (hr : pyStrip rl ≠ "")
    (heff : effective_face fi (get_or_create_session_id cookie fSid) s = some fd)
    (hfd : fd ≠ "")
    (hfree : lookupD s.registered_faces (pyStrip name) = none) :
    (lookupD (register_entry cookie fSid fCode name cls rl fi s).2.registered_faces
        (pyStrip name) =
      some ⟨pyStrip name, pyTake fd 500, pyStrip cls, pyStrip rl, fCode, s.now⟩) ∧
    (∀ p1 p2 : String, 100 ≤ p1.length → 100 ≤ p2.length →
      pyTake p1 500 = pyTake p2 500 →
      approve_face cookie fSid fTok p1 s = approve_face cookie fSid fTok p2 s) := by
  constructor
  · rw [register_entry_success cookie fSid fCode name cls rl fi s fd hn hc hr heff hfd hfree]
    rw [log_action_registered, clear_temp_face_registered]
    exact lookupD_setD_self s.registered_faces (pyStrip name)
      ⟨pyStrip name, pyTake fd 500, pyStrip cls, pyStrip rl, fCode, s.now⟩
  · intro p1 p2 h1 h2 hpre
    have g1 := length_guard_of_ge p1 h1
    have g2 := length_guard_of_ge p2 h2
    by_cases hne : s.registered_faces = []
    · unfold approve_face
      rw [if_neg g1, if_neg g2, if_pos hne, if_pos hne]
    · rw [approve_face_eq cookie fSid fTok p1 s g1 hne,
        approve_face_eq cookie fSid fTok p2 s g2 hne, hpre]

set_option maxRecDepth 100000 in
/-- Witness for C9: registering `Dan` stores the slice of a one-character
payload, and two 501-character payloads equal on their first 500 characters
but different at position 500 yield identical approval results. -/
theorem C9_prefix_only_witness :
    lookupD (register_entry none "cs" "D1D1" "Dan" "8C" "31" "x" wState).2.registered_faces
        (pyStrip "Dan") =
      some ⟨pyStrip "Dan", pyTake "x" 500, pyStrip "8C", pyStrip "31", "D1D1", wState.now⟩ ∧
    approve_face none "cs" "#DBZ" wLong1 wState = approve_face none "cs" "#DBZ" wLong2 wState :=
  ⟨(C9_prefix_only none "cs" "#DBZ" "D1D1" "Dan" "8C" "31" "x" wState "x" (by decide)
      (by decide) (by decide) (by decide) (by decide) (by decide)).1,
   (C9_prefix_only none "cs" "#DBZ" "D1D1" "Dan" "8C" "31" "x" wState "x" (by decide)
      (by decide) (by decide) (by decide) (by decide) (by decide)).2 wLong1 wLong2
     (by decide) (by decide) (by decide)⟩

/-- Claim C10: the 100-character minimum payload length is enforced by
`capture_face` but not by `register_entry` for inline payloads: any call with
non-blank trimmed fields, an unregistered trimmed name, and a non-empty
inline payload — even a single character — succeeds, storing that payload's
500-character slice as the fingerprint. -/
theorem C10_min_length (cookie : Option String) (fSid fCode name cls rl fi : String)
    (s : AppState)
    (hn : pyStrip name ≠ "") (hc : pyStrip cls ≠ "") (hr : pyStrip rl ≠ "")
    (hfree : lookupD s.registered_faces (pyStrip name) = none)
    (hfi : fi ≠ "") :
    (∀ img : String, img.length < 100 →
      capture_face cookie fSid img s =
        (Except.error (ApiError.badRequest invalidFaceDetail), s)) ∧
    (register_entry cookie fSid fCode name cls rl fi s).1 =
      Except.ok { code := fCode, name := pyStrip name } ∧
    lookupD (register_entry cookie fSid fCode name cls rl fi s).2.registered_faces
        (pyStrip name) =
      some ⟨pyStrip name, pyTake fi 500, pyStrip cls, pyStrip rl, fCode, s.now⟩ := by
  have heff : effective_face fi (get_or_create_session_id cookie fSid) s = some fi := by
    unfold effective_face
    rw [if_neg hfi]
  refine ⟨?_, ?_, ?_⟩
  · intro img himg
    unfold capture_face
    rw [if_pos (Or.inr himg)]
  · rw [register_entry_success cookie fSid fCode name cls rl fi s fi hn hc hr heff hfi hfree]
  · rw [register_entry_success cookie fSid fCode name cls rl fi s fi hn hc hr heff hfi hfree]
    rw [log_action_registered, clear_temp_face_registered]
    exact lookupD_setD_self s.registered_faces (pyStrip name)
      ⟨pyStrip name, pyTake fi 500, pyStrip cls, pyStrip rl, fCode, s.now⟩

/-- Witness for C10: a 4-character capture is rejected while registering
`Eve` with the single character x succeeds. -/
theorem C10_min_length_witness :
    capture_face none "cs" "tiny" wState =
      (Except.error (ApiError.badRequest invalidFaceDetail), wState) ∧
    (register_entry none "cs" "E1E1" "Eve" "9D" "41" "x" wState).1 =
      Except.ok { code := "E1E1", name := pyStrip "Eve" } :=
  ⟨(C10_min_length none "cs" "E1E1" "Eve" "9D" "41" "x" wState (by decide) (by decide)
      (by decide) (by decide) (by decide)).1 "tiny" (by decide),
   (C10_min_length none "cs" "E1E1" "Eve" "9D" "41" "x" wState (by decide) (by decide)
      (by decide) (by decide) (by decide)).2.1⟩

end FaceApproval
